import Mathlib

/-!
# HC-SR04 ultrasonic ranger driver (hc-sr04.c)

A shallow embedding of the measurement core of the driver:

* the file-scope variables `valid_value`, `echo_start`, `echo_end` (`Drv`);
* the interrupt handler `hc_sr04_isr`, as the list of stores it performs;
* the sysfs read routine `hc_sr04_value_read`, as a function that threads the
  driver state and a chronological trace of events through the statements of
  the C function, with the handler invocations that preempt it supplied by a
  schedule (`Sched`): one window of invocations after every statement;
* the module initialisation `hc_sr04_init`, over the results of the kernel
  calls it makes.

`ktime_t` is a signed 64-bit count of nanoseconds; `int counter` only takes the
values 0..23201 and is a `Nat`.
-/

namespace HcSr04

/-! ## Kernel time helpers (linux/ktime.h) -/

/-- Two's complement reduction of an integer to the range of `s64`. -/
def wrap_s64 (x : Int) : Int := (x + 2 ^ 63) % 2 ^ 64 - 2 ^ 63

/-- Kernel helper `ktime_sub(lhs, rhs)`: subtraction of two `s64` nanosecond counts. -/
def ktime_sub (lhs rhs : Int) : Int := wrap_s64 (lhs - rhs)

/-- Kernel helper `ktime_to_us(kt)`: nanoseconds to microseconds, C division by
`NSEC_PER_USEC` (rounds towards zero). -/
def ktime_to_us (kt : Int) : Int := Int.tdiv kt 1000

/-- A timestamp that `ktime_get()` can return: a non-negative `s64`. -/
def ktime_ok (t : Int) : Prop := 0 ≤ t ∧ t < 2 ^ 63

instance (t : Int) : Decidable (ktime_ok t) := by
  unfold ktime_ok; infer_instance

/-! ## Module parameters and file-scope state -/

/-- Module parameters `gpio_echo` and `gpio_trigger` with their defaults. -/
structure Cfg where
  gpio_echo : Int := 17
  gpio_trigger : Int := 4
  deriving DecidableEq, Repr

/-- The file-scope variables shared by the read routine and the handler. -/
structure Drv where
  valid_value : Int
  echo_start : Int
  echo_end : Int
  deriving DecidableEq, Repr

/-- State at module load: `static int valid_value = 0;` and the two
zero-initialised `static ktime_t` variables. -/
def Drv.initial : Drv := { valid_value := 0, echo_start := 0, echo_end := 0 }

/-! ## The interrupt handler -/

/-- A store to one of the file-scope variables. -/
inductive Store where
  | echo_start (t : Int)
  | echo_end (t : Int)
  | valid_value (v : Int)
  deriving DecidableEq, Repr

/-- Effect of one store on the driver state. -/
def Store.apply : Store → Drv → Drv
  | .echo_start t, s => { s with echo_start := t }
  | .echo_end t, s => { s with echo_end := t }
  | .valid_value v, s => { s with valid_value := v }

/-- The stores performed by `hc_sr04_isr`, in program order. `level` is the
value returned by `gpio_get_value(gpio_echo)` and `now` the value returned by
`ktime_get()`.
```
if (0 == valid_value) {
  ktime_dummy = ktime_get();
  if (1 == gpio_get_value(gpio_echo)) { echo_start = ktime_dummy; }
  else { echo_end = ktime_dummy; valid_value = 1; }
}
``` -/
def hc_sr04_isr_stores (s : Drv) (level now : Int) : List Store :=
  if 0 = s.valid_value then
    if 1 = level then [Store.echo_start now]
    else [Store.echo_end now, Store.valid_value 1]
  else []

/-- The handler `hc_sr04_isr`: the state after its stores. -/
def hc_sr04_isr (s : Drv) (level now : Int) : Drv :=
  (hc_sr04_isr_stores s level now).foldl (fun acc st => st.apply acc) s

/-! ## Events, schedules and the read routine -/

/-- Value written into the sysfs buffer by `hc_sr04_value_read`. -/
inductive Ret where
  /-- Line 73: `return sprintf(buf, "%d\n", -1);` -/
  | out_of_range
  /-- Line 78: `return sprintf(buf, "%lld\n", us);` -/
  | elapsed (us : Int)
  deriving DecidableEq, Repr

/-- The number printed into the buffer. -/
def Ret.number : Ret → Int
  | .out_of_range => -1
  | .elapsed us => us

/-- The text left in the buffer: the number in decimal and a newline. -/
def Ret.buf (r : Ret) : String := toString r.number ++ "\n"

/-- Observable events, in chronological order in a trace. -/
inductive Ev where
  /-- Call `gpio_set_value(gpio, value)`. -/
  | gpio_set_value (gpio value : Int)
  /-- Call `udelay(usecs)`. -/
  | udelay (usecs : Nat)
  /-- The read routine stores `v` to `valid_value`. -/
  | store_valid_value (v : Int)
  /-- One run of the handler: the line level and clock value it read, and the
  value of `valid_value` it found at its guard. -/
  | isr (level now seen : Int)
  /-- The read routine returns. -/
  | ret (r : Ret)
  deriving DecidableEq, Repr

/-- Driver state together with the trace of events so far. -/
structure World where
  drv : Drv
  trace : List Ev
  deriving DecidableEq, Repr

/-- World at module load. -/
def World.initial : World := { drv := Drv.initial, trace := [] }

/-- One handler invocation as seen from outside: what the echo line and the
clock read when it runs. -/
structure Irq where
  level : Int
  now : Int
  deriving DecidableEq, Repr

/-- Points of `hc_sr04_value_read` after which interrupts may be delivered. -/
inductive Win where
  /-- After `gpio_set_value(gpio_trigger, 1)`. -/
  | trig_hi
  /-- After `udelay(10)`. -/
  | delay10
  /-- After `gpio_set_value(gpio_trigger, 0)`. -/
  | trig_lo
  /-- After `valid_value = 0` (and `counter = 0`). -/
  | reset
  /-- After the `k`-th evaluation of the loop condition `0 == valid_value`. -/
  | test (k : Nat)
  /-- After the `k`-th `udelay(1)`. -/
  | delay (k : Nat)
  deriving DecidableEq, Repr

/-- Interrupt schedule of one call: the handler invocations of each window. -/
abbrev Sched := Win → List Irq

/-- Append an event to the trace. -/
def emit (e : Ev) (w : World) : World := { w with trace := w.trace ++ [e] }

/-- Run the handler once, logging the invocation. -/
def fire (w : World) (i : Irq) : World :=
  { drv := hc_sr04_isr w.drv i.level i.now,
    trace := w.trace ++ [Ev.isr i.level i.now w.drv.valid_value] }

/-- Deliver the interrupts of one window, in order. -/
def deliver (irqs : List Irq) (w : World) : World := irqs.foldl fire w

/-- The polling loop of `hc_sr04_value_read` and the return that follows it.
```
while (0 == valid_value) {
  if (++counter > 23200) { return sprintf(buf, "%d\n", -1); }
  udelay(1);
}
return sprintf(buf, "%lld\n", ktime_to_us(ktime_sub(echo_end, echo_start)));
```
`fuel` bounds the number of evaluations of the loop condition. -/
def poll (env : Sched) : Nat → Nat → World → Option (Ret × World)
  | 0, _, _ => none
  | fuel + 1, counter, w =>
    let seen := w.drv.valid_value
    let w := deliver (env (Win.test (counter + 1))) w
    if 0 = seen then
      let counter := counter + 1
      if counter > 23200 then
        some (Ret.out_of_range, emit (Ev.ret Ret.out_of_range) w)
      else
        let w := emit (Ev.udelay 1) w
        let w := deliver (env (Win.delay counter)) w
        poll env fuel counter w
    else
      let r := Ret.elapsed (ktime_to_us (ktime_sub w.drv.echo_end w.drv.echo_start))
      some (r, emit (Ev.ret r) w)

/-- The sysfs read routine `hc_sr04_value_read`.
```
gpio_set_value(gpio_trigger, 1);
udelay(10);
gpio_set_value(gpio_trigger, 0);
valid_value = 0;
counter = 0;
while ...
``` -/
def hc_sr04_value_read (cfg : Cfg) (env : Sched) (fuel : Nat) (w : World) :
    Option (Ret × World) :=
  let w := emit (Ev.gpio_set_value cfg.gpio_trigger 1) w
  let w := deliver (env Win.trig_hi) w
  let w := emit (Ev.udelay 10) w
  let w := deliver (env Win.delay10) w
  let w := emit (Ev.gpio_set_value cfg.gpio_trigger 0) w
  let w := deliver (env Win.trig_lo) w
  let w := emit (Ev.store_valid_value 0) { w with drv := { w.drv with valid_value := 0 } }
  let w := deliver (env Win.reset) w
  poll env fuel 0 w

/-! ## Executions of the driver -/

/-- What happens to a loaded driver: a handler invocation while no read is in
progress, or one complete call of `hc_sr04_value_read` together with the
interrupts that preempt it. -/
inductive Op where
  | isr (i : Irq)
  | read (env : Sched)

/-- One operation on the world. -/
def step (cfg : Cfg) (fuel : Nat) (w : World) : Op → Option World
  | Op.isr i => some (fire w i)
  | Op.read env => (hc_sr04_value_read cfg env fuel w).map Prod.snd

/-- A sequence of operations, reads strictly one after the other. -/
def run (cfg : Cfg) (fuel : Nat) : World → List Op → Option World
  | w, [] => some w
  | w, op :: ops => (step cfg fuel w op).bind (fun w1 => run cfg fuel w1 ops)

/-! ## Specification vocabulary -/

/-- The handler applied to a list of invocations, in order. -/
def run_isrs (s : Drv) (irqs : List Irq) : Drv :=
  irqs.foldl (fun acc i => hc_sr04_isr acc i.level i.now) s

/-- The trace entries of a list of handler invocations started in state `s`. -/
def isr_log : Drv → List Irq → List Ev
  | _, [] => []
  | s, i :: rest =>
    Ev.isr i.level i.now s.valid_value :: isr_log (hc_sr04_isr s i.level i.now) rest

/-- The invocations of the windows of `n` loop iterations after the first
`counter` ones: `test (counter+1)`, `delay (counter+1)`, ..., `delay (counter+n)`. -/
def poll_irqs (env : Sched) : Nat → Nat → List Irq
  | _, 0 => []
  | counter, n + 1 =>
    env (Win.test (counter + 1)) ++ env (Win.delay (counter + 1)) ++ poll_irqs env (counter + 1) n

/-- All handler invocations between the store `valid_value = 0` and the last
(23201st) evaluation of the loop condition. -/
def window_irqs (env : Sched) : List Irq := env Win.reset ++ poll_irqs env 0 23200

/-- The handler invocations that precede the store `valid_value = 0` of a call. -/
def pulse_irqs (env : Sched) : List Irq :=
  env Win.trig_hi ++ env Win.delay10 ++ env Win.trig_lo

/-- Driver state right after the store `valid_value = 0` of a call entered in
state `s`. -/
def after_reset (env : Sched) (s : Drv) : Drv :=
  { run_isrs s (pulse_irqs env) with valid_value := 0 }

/-- Clock value read by a handler invocation, for the other events nothing. -/
def Ev.time : Ev → Option Int
  | Ev.isr _ now _ => some now
  | _ => none

/-- The clock values read by the handler invocations of a trace, in order. -/
def times (tr : List Ev) : List Int := tr.filterMap Ev.time

/-- The handler timestamps of a trace come from a non-negative, non-decreasing
`s64` clock. -/
def clock_ok (tr : List Ev) : Prop :=
  (times tr).Pairwise (fun a b => a ≤ b) ∧ ∀ t ∈ times tr, ktime_ok t

instance (tr : List Ev) : Decidable (clock_ok tr) := by
  unfold clock_ok; infer_instance

/-- A recorded timestamp is 0 (never written) or a clock value of the trace. -/
def stamped (tr : List Ev) (x : Int) : Prop := x = 0 ∨ x ∈ times tr

/-- Invariant of the driver: both timestamps were read from the clock (or are
still 0), a set `valid_value` comes with `echo_start ≤ echo_end`, and every
elapsed time returned so far is non-negative. -/
def Inv (w : World) : Prop :=
  stamped w.trace w.drv.echo_start ∧ stamped w.trace w.drv.echo_end ∧
  (w.drv.valid_value ≠ 0 → w.drv.echo_start ≤ w.drv.echo_end) ∧
  ∀ us, Ev.ret (Ret.elapsed us) ∈ w.trace → 0 ≤ us

/-- The invariant holds as long as the clock behaved. -/
def Safe (w : World) : Prop := clock_ok w.trace → Inv w

/-- Scenario A seen at once: both edges arrive right after the reset. -/
def scenario_a_fast : Sched := fun win =>
  if win = Win.reset then [{ level := 1, now := 1000000 }, { level := 0, now := 1150000 }]
  else []

/-- What the read routine returns when the loop is left in state `s`: the timeout
text when `valid_value` is still 0, otherwise the elapsed microseconds. -/
def read_ret (s : Drv) : Ret :=
  if s.valid_value = 0 then Ret.out_of_range
  else Ret.elapsed (ktime_to_us (ktime_sub s.echo_end s.echo_start))

/-- The trace of the trigger pulse of a call entered in state `s`: everything
from the first statement up to, not including, the store `valid_value = 0`. -/
def pulse_trace (cfg : Cfg) (env : Sched) (s : Drv) : List Ev :=
  [Ev.gpio_set_value cfg.gpio_trigger 1] ++ isr_log s (env Win.trig_hi) ++
    [Ev.udelay 10] ++ isr_log (run_isrs s (env Win.trig_hi)) (env Win.delay10) ++
    [Ev.gpio_set_value cfg.gpio_trigger 0] ++
    isr_log (run_isrs s (env Win.trig_hi ++ env Win.delay10)) (env Win.trig_lo)

/-- Scenario A: the echo line rises at 1000 us, seen after the 100th poll delay,
and falls at 1150 us, seen after the 250th. -/
def scenario_a : Sched := fun win =>
  if win = Win.delay 100 then [{ level := 1, now := 1000000 }]
  else if win = Win.delay 250 then [{ level := 0, now := 1150000 }]
  else []

/-- Scenario B: the echo line rises at time 0, right after the reset, and never
falls. -/
def scenario_b : Sched := fun win =>
  if win = Win.reset then [{ level := 1, now := 0 }] else []

/-- No interrupt at all during the call. -/
def quiet : Sched := fun _ => []

/-- A single falling edge at 500 us right after the reset, no rising edge. -/
def fall_only : Sched := fun win =>
  if win = Win.reset then [{ level := 0, now := 500000 }] else []

/-- An echo that starts early: the line is seen high while the trigger line is
still high (before the reset) and low right after the reset. -/
def early_echo : Sched := fun win =>
  if win = Win.trig_hi then [{ level := 1, now := 2000000 }]
  else if win = Win.reset then [{ level := 0, now := 2100000 }]
  else []

/-- The module parameters at their defaults. -/
def Cfg.defaults : Cfg := {}

/-! ## Module initialisation -/

/-- Return values of the kernel calls made by `hc_sr04_init`, in call order. -/
structure InitCalls where
  class_register : Int
  gpio_request_trigger : Int
  gpio_request_echo : Int
  gpio_direction_output : Int
  gpio_direction_input : Int
  gpio_to_irq : Int
  request_irq : Int
  deriving DecidableEq, Repr

/-- What the module holds: a call that reports success has taken effect.
`class_registered` means the class `distance` with its attribute `value`, whose
show routine is `hc_sr04_value_read`, is visible in sysfs. -/
structure Hw where
  class_registered : Bool
  trigger_requested : Bool
  echo_requested : Bool
  trigger_output : Bool
  echo_input : Bool
  gpio_irq : Int
  handler_installed : Bool
  deriving DecidableEq, Repr

/-- Nothing held yet; `static int gpio_irq = -1;`. -/
def Hw.initial : Hw :=
  { class_registered := false, trigger_requested := false, echo_requested := false,
    trigger_output := false, echo_input := false, gpio_irq := -1,
    handler_installed := false }

/-- Every line is acquired and configured and the handler is installed. -/
def Hw.ready (h : Hw) : Bool :=
  h.trigger_requested && h.echo_requested && h.trigger_output && h.echo_input &&
    h.handler_installed

/-- The module init routine `hc_sr04_init`: each failing call jumps to `fail:`,
which is `return -1;` and nothing else. -/
def hc_sr04_init (k : InitCalls) (h : Hw) : Int × Hw :=
  if k.class_register < 0 then (-1, h)
  else
    let h := { h with class_registered := true }
    if 0 ≠ k.gpio_request_trigger then (-1, h)
    else
      let h := { h with trigger_requested := true }
      if 0 ≠ k.gpio_request_echo then (-1, h)
      else
        let h := { h with echo_requested := true }
        if 0 ≠ k.gpio_direction_output then (-1, h)
        else
          let h := { h with trigger_output := true }
          if 0 ≠ k.gpio_direction_input then (-1, h)
          else
            let h := { h with echo_input := true }
            if k.gpio_to_irq < 0 then (-1, h)
            else
              let h := { h with gpio_irq := k.gpio_to_irq }
              if k.request_irq ≠ 0 then (-1, h)
              else (0, { h with handler_installed := true })

/-- The class registers, then `gpio_request(gpio_trigger, ...)` fails with
`-EBUSY`; the later calls are never made. -/
def InitCalls.trigger_busy : InitCalls :=
  { class_register := 0, gpio_request_trigger := -16, gpio_request_echo := 0,
    gpio_direction_output := 0, gpio_direction_input := 0, gpio_to_irq := 17,
    request_irq := 0 }

/-- Every kernel call of `hc_sr04_init` reported success. -/
def InitCalls.all_ok (k : InitCalls) : Prop :=
  0 ≤ k.class_register ∧ k.gpio_request_trigger = 0 ∧ k.gpio_request_echo = 0 ∧
    k.gpio_direction_output = 0 ∧ k.gpio_direction_input = 0 ∧ 0 ≤ k.gpio_to_irq ∧
    k.request_irq = 0

/-! ## The handler -/

theorem isr_done (s : Drv) (level now : Int) (h : s.valid_value ≠ 0) :
    hc_sr04_isr s level now = s := by
  have h1 : ¬ (0 = s.valid_value) := fun e => h e.symm
  simp [hc_sr04_isr, hc_sr04_isr_stores, h1]

theorem isr_high (s : Drv) (now : Int) (h : s.valid_value = 0) :
    hc_sr04_isr s 1 now = { s with echo_start := now } := by
  simp [hc_sr04_isr, hc_sr04_isr_stores, h, Store.apply]

theorem isr_low (s : Drv) (level now : Int) (h : s.valid_value = 0) (hl : level ≠ 1) :
    hc_sr04_isr s level now = { s with echo_end := now, valid_value := 1 } := by
  have h1 : ¬ (1 = level) := fun e => hl e.symm
  simp [hc_sr04_isr, hc_sr04_isr_stores, h, h1, Store.apply]

theorem run_isrs_nil (s : Drv) : run_isrs s [] = s := rfl

theorem run_isrs_cons (s : Drv) (i : Irq) (l : List Irq) :
    run_isrs s (i :: l) = run_isrs (hc_sr04_isr s i.level i.now) l := rfl

theorem run_isrs_append (s : Drv) (l1 l2 : List Irq) :
    run_isrs s (l1 ++ l2) = run_isrs (run_isrs s l1) l2 := by
  simp [run_isrs, List.foldl_append]

theorem run_isrs_done (l : List Irq) : ∀ (s : Drv), s.valid_value ≠ 0 → run_isrs s l = s := by
  induction l with
  | nil => intro s _; rfl
  | cons i l ih =>
    intro s h
    rw [run_isrs_cons, isr_done s _ _ h]
    exact ih s h

theorem run_isrs_high (l : List Irq) : ∀ (s : Drv), s.valid_value = 0 →
    (∀ i ∈ l, i.level = 1) →
    (run_isrs s l).valid_value = 0 ∧ (run_isrs s l).echo_end = s.echo_end := by
  induction l with
  | nil => intro s h _; exact ⟨h, rfl⟩
  | cons i l ih =>
    intro s h hl
    have hi : i.level = 1 := hl i (List.mem_cons_self _ _)
    rw [run_isrs_cons, hi, isr_high s _ h]
    exact ih _ h (fun j hj => hl j (List.mem_cons_of_mem _ hj))

theorem deliver_drv (l : List Irq) : ∀ (w : World), (deliver l w).drv = run_isrs w.drv l := by
  induction l with
  | nil => intro w; rfl
  | cons i l ih =>
    intro w
    show (deliver l (fire w i)).drv = _
    rw [ih, run_isrs_cons]
    rfl

theorem deliver_trace (l : List Irq) : ∀ (w : World),
    (deliver l w).trace = w.trace ++ isr_log w.drv l := by
  induction l with
  | nil => intro w; simp [deliver, isr_log]
  | cons i l ih =>
    intro w
    show (deliver l (fire w i)).trace = _
    rw [ih]
    simp [fire, isr_log]

theorem isr_log_count_udelay (l : List Irq) : ∀ (s : Drv) (n : Nat),
    (isr_log s l).count (Ev.udelay n) = 0 := by
  induction l with
  | nil => intro s n; simp [isr_log]
  | cons i l ih =>
    intro s n
    simp [isr_log, ih]

/-! ## The polling loop -/

theorem poll_spec (env : Sched) : ∀ (n fuel counter : Nat) (w : World),
    counter + n = 23200 → n < fuel →
    ∃ w1 mid,
      poll env fuel counter w = some (read_ret (run_isrs w.drv (poll_irqs env counter n)), w1) ∧
      w1.drv = run_isrs w.drv (poll_irqs env counter n ++ env (Win.test 23201)) ∧
      w1.trace = w.trace ++ mid ++
        [Ev.ret (read_ret (run_isrs w.drv (poll_irqs env counter n)))] ∧
      ((run_isrs w.drv (poll_irqs env counter n)).valid_value = 0 →
        mid.count (Ev.udelay 1) = n) := by
  intro n
  induction n with
  | zero =>
    intro fuel counter w hc hf
    obtain ⟨f, rfl⟩ : ∃ f, fuel = f + 1 := ⟨fuel - 1, by omega⟩
    have hc1 : counter = 23200 := by omega
    subst hc1
    by_cases hv : w.drv.valid_value = 0
    · refine ⟨emit (Ev.ret Ret.out_of_range) (deliver (env (Win.test 23201)) w),
        isr_log w.drv (env (Win.test 23201)), ?_, ?_, ?_, ?_⟩
      · simp [poll, poll_irqs, run_isrs_nil, read_ret, hv]
      · simp [poll_irqs, emit, deliver_drv]
      · simp [emit, deliver_trace, poll_irqs, run_isrs_nil, read_ret, hv]
      · intro _
        simp [isr_log_count_udelay]
    · have hv1 : ¬ (0 = w.drv.valid_value) := fun e => hv e.symm
      refine ⟨emit (Ev.ret (read_ret w.drv)) (deliver (env (Win.test 23201)) w),
        isr_log w.drv (env (Win.test 23201)), ?_, ?_, ?_, ?_⟩
      · simp [poll, poll_irqs, run_isrs_nil, read_ret, hv, hv1, deliver_drv,
          run_isrs_done _ _ hv]
      · simp [poll_irqs, emit, deliver_drv]
      · simp [emit, deliver_trace, poll_irqs, run_isrs_nil]
      · intro h0
        exact absurd (by simpa [poll_irqs, run_isrs_nil] using h0) hv
  | succ n ih =>
    intro fuel counter w hc hf
    obtain ⟨f, rfl⟩ : ∃ f, fuel = f + 1 := ⟨fuel - 1, by omega⟩
    by_cases hv : w.drv.valid_value = 0
    · have hle : ¬ (counter + 1 > 23200) := by omega
      obtain ⟨w1, mid, h1, h2, h3, h4⟩ := ih f (counter + 1)
        (deliver (env (Win.delay (counter + 1)))
          (emit (Ev.udelay 1) (deliver (env (Win.test (counter + 1))) w)))
        (by omega) (by omega)
      have hd : (deliver (env (Win.delay (counter + 1)))
          (emit (Ev.udelay 1) (deliver (env (Win.test (counter + 1))) w))).drv =
          run_isrs w.drv (env (Win.test (counter + 1)) ++ env (Win.delay (counter + 1))) := by
        simp [deliver_drv, emit, run_isrs_append]
      rw [hd] at h1 h2 h3 h4
      have hp : run_isrs w.drv (poll_irqs env counter (n + 1)) =
          run_isrs (run_isrs w.drv
            (env (Win.test (counter + 1)) ++ env (Win.delay (counter + 1))))
            (poll_irqs env (counter + 1) n) := by
        simp [poll_irqs, run_isrs_append]
      refine ⟨w1, isr_log w.drv (env (Win.test (counter + 1))) ++ [Ev.udelay 1] ++
        isr_log (run_isrs w.drv (env (Win.test (counter + 1)))) (env (Win.delay (counter + 1)))
        ++ mid, ?_, ?_, ?_, ?_⟩
      · rw [poll]
        simp only [hv, hle, if_true, if_false]
        rw [h1, hp]
      · rw [h2]
        simp [poll_irqs, run_isrs_append]
      · rw [h3, hp]
        simp [deliver_trace, emit, deliver_drv]
      · intro h0
        rw [hp] at h0
        have := h4 h0
        simp [isr_log_count_udelay, this]
    · have hv1 : ¬ (0 = w.drv.valid_value) := fun e => hv e.symm
      refine ⟨emit (Ev.ret (read_ret w.drv)) (deliver (env (Win.test (counter + 1))) w),
        isr_log w.drv (env (Win.test (counter + 1))), ?_, ?_, ?_, ?_⟩
      · rw [poll]
        simp [read_ret, hv, hv1, deliver_drv, run_isrs_done _ _ hv]
      · simp [emit, deliver_drv, run_isrs_done _ _ hv]
      · simp [emit, deliver_trace, run_isrs_done _ _ hv]
      · intro h0
        exact absurd (by simpa [run_isrs_done _ _ hv] using h0) hv

/-! ## The read routine -/

theorem read_spec (cfg : Cfg) (env : Sched) (fuel : Nat) (w : World) (hf : 23201 ≤ fuel) :
    ∃ w1 mid,
      hc_sr04_value_read cfg env fuel w =
        some (read_ret (run_isrs (after_reset env w.drv) (window_irqs env)), w1) ∧
      w1.drv = run_isrs (after_reset env w.drv) (window_irqs env ++ env (Win.test 23201)) ∧
      w1.trace = w.trace ++ pulse_trace cfg env w.drv ++ [Ev.store_valid_value 0] ++
        isr_log (after_reset env w.drv) (env Win.reset) ++ mid ++
        [Ev.ret (read_ret (run_isrs (after_reset env w.drv) (window_irqs env)))] ∧
      ((run_isrs (after_reset env w.drv) (window_irqs env)).valid_value = 0 →
        mid.count (Ev.udelay 1) = 23200) := by
  obtain ⟨w1, mid, h1, h2, h3, h4⟩ := poll_spec env 23200 fuel 0
    (deliver (env Win.reset)
      (emit (Ev.store_valid_value 0)
        { (deliver (env Win.trig_lo) (emit (Ev.gpio_set_value cfg.gpio_trigger 0)
            (deliver (env Win.delay10) (emit (Ev.udelay 10)
              (deliver (env Win.trig_hi)
                (emit (Ev.gpio_set_value cfg.gpio_trigger 1) w)))))) with
          drv := { (deliver (env Win.trig_lo) (emit (Ev.gpio_set_value cfg.gpio_trigger 0)
            (deliver (env Win.delay10) (emit (Ev.udelay 10)
              (deliver (env Win.trig_hi)
                (emit (Ev.gpio_set_value cfg.gpio_trigger 1) w)))))).drv with
            valid_value := 0 } }))
    (by omega) (by omega)
  have hd : (deliver (env Win.reset)
      (emit (Ev.store_valid_value 0)
        { (deliver (env Win.trig_lo) (emit (Ev.gpio_set_value cfg.gpio_trigger 0)
            (deliver (env Win.delay10) (emit (Ev.udelay 10)
              (deliver (env Win.trig_hi)
                (emit (Ev.gpio_set_value cfg.gpio_trigger 1) w)))))) with
          drv := { (deliver (env Win.trig_lo) (emit (Ev.gpio_set_value cfg.gpio_trigger 0)
            (deliver (env Win.delay10) (emit (Ev.udelay 10)
              (deliver (env Win.trig_hi)
                (emit (Ev.gpio_set_value cfg.gpio_trigger 1) w)))))).drv with
            valid_value := 0 } })).drv =
      run_isrs (after_reset env w.drv) (env Win.reset) := by
    simp [deliver_drv, emit, after_reset, pulse_irqs, run_isrs_append]
  rw [hd] at h1 h2 h3 h4
  rw [← run_isrs_append] at h1 h3 h4
  rw [← run_isrs_append, ← List.append_assoc] at h2
  refine ⟨w1, mid, ?_, h2, ?_, h4⟩
  · exact h1
  · rw [h3]
    simp [deliver_trace, emit, deliver_drv, pulse_trace, after_reset, pulse_irqs,
      window_irqs, run_isrs_append]

/-! ## Arithmetic of timestamps -/

theorem ktime_sub_eq (a b : Int) (ha : 0 ≤ a) (ha2 : a < 2 ^ 63) (hb : 0 ≤ b)
    (hb2 : b < 2 ^ 63) : ktime_sub a b = a - b := by
  unfold ktime_sub wrap_s64
  norm_num at ha2 hb2 ⊢
  omega

theorem ktime_to_us_of_nonneg (x : Int) (hx : 0 ≤ x) : ktime_to_us x = x / 1000 :=
  Int.tdiv_eq_ediv hx (by norm_num)

theorem elapsed_us (a b : Int) (ha : 0 ≤ a) (hab : a ≤ b) (hb : b < 2 ^ 63) :
    ktime_to_us (ktime_sub b a) = (b - a) / 1000 := by
  rw [ktime_sub_eq b a (le_trans ha hab) hb ha (lt_of_le_of_lt hab hb)]
  exact ktime_to_us_of_nonneg _ (by omega)

/-! ## Sequences of handler invocations -/

theorem run_isrs_fall (s : Drv) (level T1 : Int) (post : List Irq) (hs : s.valid_value = 0)
    (hlow : level ≠ 1) :
    run_isrs s ({ level := level, now := T1 } :: post) =
      { valid_value := 1, echo_start := s.echo_start, echo_end := T1 } := by
  rw [run_isrs_cons, isr_low s level T1 hs hlow]
  exact run_isrs_done _ _ (by simp)

theorem run_isrs_high_start (l : List Irq) : ∀ (s : Drv) (i : Irq), s.valid_value = 0 →
    (∀ j ∈ l, j.level = 1) → i.level = 1 →
    run_isrs s (l ++ [i]) = { valid_value := 0, echo_start := i.now, echo_end := s.echo_end } := by
  induction l with
  | nil =>
    intro s i hs _ hi
    show hc_sr04_isr s i.level i.now = _
    rw [hi, isr_high s _ hs]
    simp [hs]
  | cons j l ih =>
    intro s i hs hl hi
    have hj : j.level = 1 := hl j (List.mem_cons_self _ _)
    show run_isrs (hc_sr04_isr s j.level j.now) (l ++ [i]) = _
    rw [hj, isr_high s _ hs]
    exact ih _ i hs (fun k hk => hl k (List.mem_cons_of_mem _ hk)) hi

theorem run_isrs_pulse (s : Drv) (pre post : List Irq) (level T0 T1 : Int)
    (hs : s.valid_value = 0) (hpre : ∀ i ∈ pre, i.level = 1) (hlow : level ≠ 1) :
    run_isrs s (pre ++ { level := 1, now := T0 } :: { level := level, now := T1 } :: post) =
      { valid_value := 1, echo_start := T0, echo_end := T1 } := by
  have e : pre ++ { level := 1, now := T0 } :: { level := level, now := T1 } :: post =
      (pre ++ [({ level := 1, now := T0 } : Irq)]) ++ ({ level := level, now := T1 } :: post) := by
    simp
  rw [e, run_isrs_append, run_isrs_high_start pre s _ hs hpre rfl]
  exact run_isrs_fall _ level T1 post rfl hlow

theorem poll_irqs_add (env : Sched) : ∀ (m c n : Nat),
    poll_irqs env c (m + n) = poll_irqs env c m ++ poll_irqs env (c + m) n := by
  intro m
  induction m with
  | zero => intro c n; simp [poll_irqs]
  | succ m ih =>
    intro c n
    have e : m + 1 + n = (m + n) + 1 := by omega
    rw [e]
    simp only [poll_irqs]
    rw [ih (c + 1) n]
    have e2 : c + 1 + m = c + (m + 1) := by omega
    rw [e2]
    simp

theorem poll_irqs_nil (env : Sched) : ∀ (n c : Nat),
    (∀ k, c < k → k ≤ c + n → env (Win.test k) = [] ∧ env (Win.delay k) = []) →
    poll_irqs env c n = [] := by
  intro n
  induction n with
  | zero => intro c _; rfl
  | succ n ih =>
    intro c h
    have h1 := h (c + 1) (by omega) (by omega)
    simp only [poll_irqs, h1.1, h1.2, List.nil_append]
    exact ih (c + 1) (fun k hk1 hk2 => h k (by omega) (by omega))

theorem window_irqs_scenario_a :
    window_irqs scenario_a =
      [] ++ { level := 1, now := 1000000 } :: { level := 0, now := 1150000 } :: [] := by
  have e : (23200 : Nat) = 99 + (1 + (149 + (1 + 22950))) := by norm_num
  have n1 : poll_irqs scenario_a 0 99 = [] :=
    poll_irqs_nil _ _ _ (fun k h1 h2 => by
      simp only [scenario_a, Win.delay.injEq]
      refine ⟨by simp, ?_⟩
      rw [if_neg (by omega), if_neg (by omega)])
  have n2 : poll_irqs scenario_a 100 149 = [] :=
    poll_irqs_nil _ _ _ (fun k h1 h2 => by
      simp only [scenario_a, Win.delay.injEq]
      refine ⟨by simp, ?_⟩
      rw [if_neg (by omega), if_neg (by omega)])
  have n3 : poll_irqs scenario_a 250 22950 = [] :=
    poll_irqs_nil _ _ _ (fun k h1 h2 => by
      simp only [scenario_a, Win.delay.injEq]
      refine ⟨by simp, ?_⟩
      rw [if_neg (by omega), if_neg (by omega)])
  unfold window_irqs
  rw [e, poll_irqs_add, poll_irqs_add, poll_irqs_add, poll_irqs_add, n1]
  simp only [Nat.zero_add, Nat.reduceAdd, n2, n3]
  simp [poll_irqs, scenario_a]

theorem poll_irqs_reset_only (env : Sched)
    (h : ∀ k, env (Win.test k) = [] ∧ env (Win.delay k) = []) :
    window_irqs env = env Win.reset := by
  unfold window_irqs
  rw [poll_irqs_nil env 23200 0 (fun k _ _ => h k)]
  simp

/-! ## Claims about the handler -/

/-- C4: when `valid_value` is non-zero (the measurement is complete), an
invocation of the handler performs no store and leaves `echo_start`, `echo_end`
and `valid_value` unchanged, whatever the echo level and the clock read. -/
theorem isr_noop_when_complete (s : Drv) (level now : Int) (h : s.valid_value ≠ 0) :
    hc_sr04_isr_stores s level now = [] ∧ hc_sr04_isr s level now = s ∧
      (hc_sr04_isr s level now).echo_start = s.echo_start ∧
      (hc_sr04_isr s level now).echo_end = s.echo_end ∧
      (hc_sr04_isr s level now).valid_value = s.valid_value := by
  have h1 : ¬ (0 = s.valid_value) := fun e => h e.symm
  have h2 : hc_sr04_isr s level now = s := isr_done s level now h
  refine ⟨by simp [hc_sr04_isr_stores, h1], h2, ?_, ?_, ?_⟩ <;> rw [h2]

theorem isr_noop_when_complete_witness :
    ({ valid_value := 1, echo_start := 1000000, echo_end := 1150000 } : Drv).valid_value ≠ 0 ∧
    hc_sr04_isr { valid_value := 1, echo_start := 1000000, echo_end := 1150000 } 1 2000000 =
      { valid_value := 1, echo_start := 1000000, echo_end := 1150000 } :=
  ⟨by decide, (isr_noop_when_complete
    { valid_value := 1, echo_start := 1000000, echo_end := 1150000 } 1 2000000 (by decide)).2.1⟩

/-- C5: when `valid_value` is 0, a handler invocation that reads the echo line
high (1) performs the single store `echo_start = now`; one that reads it low
(anything but 1) performs `echo_end = now` and then `valid_value = 1`, in that
order, and leaves `echo_start` alone; after two consecutive high reads
`echo_start` holds the second timestamp. -/
theorem isr_records_edge (s : Drv) (level now : Int) (h : s.valid_value = 0) :
    (level = 1 →
      hc_sr04_isr_stores s level now = [Store.echo_start now] ∧
      hc_sr04_isr s level now =
        { valid_value := s.valid_value, echo_start := now, echo_end := s.echo_end }) ∧
    (level ≠ 1 →
      hc_sr04_isr_stores s level now = [Store.echo_end now, Store.valid_value 1] ∧
      hc_sr04_isr s level now =
        { valid_value := 1, echo_start := s.echo_start, echo_end := now }) ∧
    (∀ t1 t2 : Int,
      run_isrs s [{ level := 1, now := t1 }, { level := 1, now := t2 }] =
        { valid_value := 0, echo_start := t2, echo_end := s.echo_end }) := by
  refine ⟨?_, ?_, ?_⟩
  · intro hl
    subst hl
    refine ⟨by simp [hc_sr04_isr_stores, h], ?_⟩
    rw [isr_high s now h]
  · intro hl
    have h1 : ¬ (1 = level) := fun e => hl e.symm
    refine ⟨by simp [hc_sr04_isr_stores, h, h1], ?_⟩
    rw [isr_low s level now h hl]
  · intro t1 t2
    exact run_isrs_high_start [{ level := 1, now := t1 }] s { level := 1, now := t2 } h
      (by simp) rfl

theorem isr_records_edge_witness :
    Drv.initial.valid_value = 0 ∧
    hc_sr04_isr Drv.initial 0 1150000 =
      { valid_value := 1, echo_start := 0, echo_end := 1150000 } ∧
    run_isrs Drv.initial [{ level := 1, now := 1000 }, { level := 1, now := 2000 }] =
      { valid_value := 0, echo_start := 2000, echo_end := 0 } :=
  ⟨rfl, ((isr_records_edge Drv.initial 0 1150000 rfl).2.1 (by decide)).2,
    (isr_records_edge Drv.initial 0 1150000 rfl).2.2 1000 2000⟩

/-! ## Claims about one call of the read routine -/

/-- C1: if the handler invocations between the reset and the last poll are some
high reads, then a high read at time T0, then a low read at time T1 > T0 (and
anything after), the read routine returns through line 78 with the elapsed
time (T1 - T0) / 1000, timestamps being nanosecond counts; for timestamps that
are whole microseconds t0 and t1 the number printed is exactly t1 - t0. -/
theorem read_returns_pulse_width (cfg : Cfg) (env : Sched) (fuel : Nat) (w : World)
    (pre post : List Irq) (level T0 T1 : Int) (hf : 23201 ≤ fuel)
    (hirqs : window_irqs env =
      pre ++ { level := 1, now := T0 } :: { level := level, now := T1 } :: post)
    (hpre : ∀ i ∈ pre, i.level = 1) (hlow : level ≠ 1)
    (h0 : 0 ≤ T0) (h01 : T0 < T1) (h1 : T1 < 2 ^ 63) :
    ∃ w1, hc_sr04_value_read cfg env fuel w = some (Ret.elapsed ((T1 - T0) / 1000), w1) ∧
      w1.drv = { valid_value := 1, echo_start := T0, echo_end := T1 } ∧
      ∀ t0 t1 : Int, T0 = 1000 * t0 → T1 = 1000 * t1 →
        (Ret.elapsed ((T1 - T0) / 1000)).number = t1 - t0 := by
  obtain ⟨w1, _, hr, hd, _, _⟩ := read_spec cfg env fuel w hf
  have hs : run_isrs (after_reset env w.drv) (window_irqs env) =
      { valid_value := 1, echo_start := T0, echo_end := T1 } := by
    rw [hirqs]
    exact run_isrs_pulse _ pre post level T0 T1 rfl hpre hlow
  refine ⟨w1, ?_, ?_, ?_⟩
  · rw [hr, hs]
    simp [read_ret, elapsed_us T0 T1 h0 (le_of_lt h01) h1]
  · rw [hd, run_isrs_append, hs]
    exact run_isrs_done _ _ (by simp)
  · intro t0 t1 e0 e1
    subst e0 e1
    show (1000 * t1 - 1000 * t0) / 1000 = t1 - t0
    omega

theorem read_returns_pulse_width_witness :
    ∃ w1, hc_sr04_value_read Cfg.defaults scenario_a 23201 World.initial =
        some (Ret.elapsed 150, w1) ∧ (Ret.elapsed 150).buf = "150\n" ∧
      w1.drv = { valid_value := 1, echo_start := 1000000, echo_end := 1150000 } := by
  obtain ⟨w1, h, hd, _⟩ := read_returns_pulse_width Cfg.defaults scenario_a 23201 World.initial
    [] [] 0 1000000 1150000 (le_refl _) window_irqs_scenario_a (by simp) (by decide)
    (by decide) (by decide) (by norm_num)
  have e : ((1150000 : Int) - 1000000) / 1000 = 150 := by norm_num
  rw [e] at h
  exact ⟨w1, h, by decide, hd⟩

/-- C2: if every handler invocation between the reset and the last poll reads
the echo line high (in particular if there is none), the read routine returns
through line 73, printing -1, for every fuel of at least 23201 loop tests; the
events of the call before the return contain exactly 23200 `udelay(1)`. -/
theorem read_times_out (cfg : Cfg) (env : Sched) (fuel : Nat) (w : World)
    (hf : 23201 ≤ fuel) (hhigh : ∀ i ∈ window_irqs env, i.level = 1) :
    ∃ w1 evs, hc_sr04_value_read cfg env fuel w = some (Ret.out_of_range, w1) ∧
      Ret.out_of_range.number = -1 ∧ Ret.out_of_range.buf = "-1\n" ∧
      w1.trace = w.trace ++ evs ++ [Ev.ret Ret.out_of_range] ∧
      evs.count (Ev.udelay 1) = 23200 := by
  obtain ⟨w1, mid, hr, _, ht, hc⟩ := read_spec cfg env fuel w hf
  have hv : (run_isrs (after_reset env w.drv) (window_irqs env)).valid_value = 0 :=
    (run_isrs_high _ _ rfl hhigh).1
  have hret : read_ret (run_isrs (after_reset env w.drv) (window_irqs env)) =
      Ret.out_of_range := by
    simp [read_ret, hv]
  rw [hret] at hr ht
  refine ⟨w1, pulse_trace cfg env w.drv ++ [Ev.store_valid_value 0] ++
    isr_log (after_reset env w.drv) (env Win.reset) ++ mid, hr, rfl, (by decide), ?_, ?_⟩
  · rw [ht]
    simp
  · simp [pulse_trace, isr_log_count_udelay, hc hv]

theorem read_times_out_witness :
    ∃ w1 evs, hc_sr04_value_read Cfg.defaults scenario_b 23201 World.initial =
        some (Ret.out_of_range, w1) ∧
      Ret.out_of_range.number = -1 ∧ Ret.out_of_range.buf = "-1\n" ∧
      w1.trace = World.initial.trace ++ evs ++ [Ev.ret Ret.out_of_range] ∧
      evs.count (Ev.udelay 1) = 23200 :=
  read_times_out Cfg.defaults scenario_b 23201 World.initial (le_refl _) (by
    rw [poll_irqs_reset_only scenario_b (fun k => by simp [scenario_b])]
    simp [scenario_b])

/-- C10: if the first handler invocation after the reset reads the echo line
low at time T1, the read routine does not time out: it returns through line 78
with `ktime_to_us(ktime_sub(T1, E))`, where E is the value `echo_start` held
when the reset was executed; E is the value at entry of the call when no
interrupt arrives during the trigger pulse, and for 0 ≤ E ≤ T1 the result
is (T1 - E) / 1000. -/
theorem read_falling_edge_first (cfg : Cfg) (env : Sched) (fuel : Nat) (w : World)
    (level T1 : Int) (post : List Irq) (hf : 23201 ≤ fuel)
    (hirqs : window_irqs env = { level := level, now := T1 } :: post) (hlow : level ≠ 1) :
    ∃ w1, hc_sr04_value_read cfg env fuel w =
        some (Ret.elapsed (ktime_to_us (ktime_sub T1
          (run_isrs w.drv (pulse_irqs env)).echo_start)), w1) ∧
      (pulse_irqs env = [] → (run_isrs w.drv (pulse_irqs env)).echo_start = w.drv.echo_start) ∧
      (0 ≤ (run_isrs w.drv (pulse_irqs env)).echo_start →
        (run_isrs w.drv (pulse_irqs env)).echo_start ≤ T1 → T1 < 2 ^ 63 →
        ktime_to_us (ktime_sub T1 (run_isrs w.drv (pulse_irqs env)).echo_start) =
          (T1 - (run_isrs w.drv (pulse_irqs env)).echo_start) / 1000) := by
  obtain ⟨w1, _, hr, _, _, _⟩ := read_spec cfg env fuel w hf
  have hs : run_isrs (after_reset env w.drv) (window_irqs env) =
      { valid_value := 1, echo_start := (run_isrs w.drv (pulse_irqs env)).echo_start,
        echo_end := T1 } := by
    rw [hirqs]
    exact run_isrs_fall _ level T1 post rfl hlow
  refine ⟨w1, ?_, ?_, ?_⟩
  · rw [hr, hs]
    simp [read_ret]
  · intro e
    rw [e]
    rfl
  · intro a b c
    exact elapsed_us _ _ a b c

theorem read_falling_edge_first_witness :
    ∃ w1, hc_sr04_value_read Cfg.defaults fall_only 23201 World.initial =
        some (Ret.elapsed 500, w1) := by
  obtain ⟨w1, h, _, _⟩ := read_falling_edge_first Cfg.defaults fall_only 23201 World.initial
    0 500000 [] (le_refl _) (by
      rw [poll_irqs_reset_only fall_only (fun k => by simp [fall_only])]
      simp [fall_only]) (by decide)
  have e : ktime_to_us (ktime_sub 500000
      (run_isrs World.initial.drv (pulse_irqs fall_only)).echo_start) = 500 := by
    decide
  rw [e] at h
  exact ⟨w1, h⟩

theorem isr_log_is_isr (l : List Irq) : ∀ (s : Drv) (e : Ev), e ∈ isr_log s l →
    ∃ level now seen, e = Ev.isr level now seen := by
  induction l with
  | nil => intro s e h; simp [isr_log] at h
  | cons i l ih =>
    intro s e h
    simp only [isr_log, List.mem_cons] at h
    rcases h with h | h
    · exact ⟨_, _, _, h⟩
    · exact ih _ e h

theorem window_irqs_quiet : window_irqs quiet = [] :=
  poll_irqs_reset_only quiet (fun _ => ⟨rfl, rfl⟩)

/-- C7, as stated, fails: at module load `valid_value` is 0, and a handler
invocation that arrives before the first read (here a low read at 5 us) sets
`echo_end` and `valid_value`. -/
theorem initial_state_not_complete :
    Drv.initial.valid_value = 0 ∧
    hc_sr04_isr Drv.initial 0 5000 = { valid_value := 1, echo_start := 0, echo_end := 5000 } ∧
    hc_sr04_isr Drv.initial 0 5000 ≠ Drv.initial := by
  decide

/-- C7, amended: the shared state is created with `valid_value` = 0 and both
timestamps 0, so a handler invocation that arrives before the first read is
not a no-op: a high read stores its timestamp to `echo_start`, any other read
stores it to `echo_end` and sets `valid_value` to 1. -/
theorem initial_state_accepts_edges :
    Drv.initial = { valid_value := 0, echo_start := 0, echo_end := 0 } ∧
    (∀ now : Int, hc_sr04_isr Drv.initial 1 now =
      { valid_value := 0, echo_start := now, echo_end := 0 }) ∧
    (∀ level now : Int, level ≠ 1 → hc_sr04_isr Drv.initial level now =
      { valid_value := 1, echo_start := 0, echo_end := now }) :=
  ⟨rfl, fun now => isr_high Drv.initial now rfl,
    fun level now hl => isr_low Drv.initial level now rfl hl⟩

theorem initial_state_accepts_edges_witness :
    (0 : Int) ≠ 1 ∧
    hc_sr04_isr Drv.initial 0 5000 = { valid_value := 1, echo_start := 0, echo_end := 5000 } :=
  ⟨by decide, initial_state_accepts_edges.2.2 0 5000 (by decide)⟩

/-- C8, as stated, fails: a read with no interrupt at all returns through line
73 and leaves `valid_value` at 0; a handler invocation that arrives afterwards
(a high read at 30 ms) overwrites `echo_start`. -/
theorem isr_after_timeout_not_noop :
    ∃ w1, hc_sr04_value_read Cfg.defaults quiet 23201 World.initial =
        some (Ret.out_of_range, w1) ∧
      w1.drv.valid_value = 0 ∧
      hc_sr04_isr w1.drv 1 30000000 ≠ w1.drv := by
  obtain ⟨w1, _, hr, hd, _, _⟩ := read_spec Cfg.defaults quiet 23201 World.initial (le_refl _)
  have hq : window_irqs quiet ++ quiet (Win.test 23201) = [] := by
    rw [window_irqs_quiet]; rfl
  rw [window_irqs_quiet] at hr
  rw [hq] at hd
  have hd1 : w1.drv = { valid_value := 0, echo_start := 0, echo_end := 0 } := by
    rw [hd]; rfl
  refine ⟨w1, ?_, ?_, ?_⟩
  · rw [hr]; rfl
  · rw [hd1]
  · rw [hd1]; decide

/-- C8, amended: after a read in which no handler invocation read the echo line
low (so that it returned the timeout text), `valid_value` is still 0: the
timeout return does not set it. A handler invocation arriving afterwards is
therefore not a no-op: a high read stores its timestamp to `echo_start`, any
other read stores it to `echo_end` and sets `valid_value` to 1, and only from
then on are further invocations no-ops. -/
theorem isr_after_timeout (cfg : Cfg) (env : Sched) (fuel : Nat) (w : World)
    (hf : 23201 ≤ fuel)
    (hhigh : ∀ i ∈ window_irqs env ++ env (Win.test 23201), i.level = 1) :
    ∃ w1, hc_sr04_value_read cfg env fuel w = some (Ret.out_of_range, w1) ∧
      w1.drv.valid_value = 0 ∧
      (∀ now : Int, hc_sr04_isr w1.drv 1 now =
        { valid_value := 0, echo_start := now, echo_end := w1.drv.echo_end }) ∧
      (∀ level now : Int, level ≠ 1 →
        hc_sr04_isr w1.drv level now =
          { valid_value := 1, echo_start := w1.drv.echo_start, echo_end := now } ∧
        ∀ level2 now2 : Int,
          hc_sr04_isr (hc_sr04_isr w1.drv level now) level2 now2 =
            hc_sr04_isr w1.drv level now) := by
  obtain ⟨w1, _, hr, hd, _, _⟩ := read_spec cfg env fuel w hf
  have hv : (run_isrs (after_reset env w.drv) (window_irqs env)).valid_value = 0 :=
    (run_isrs_high _ _ rfl (fun i hi => hhigh i (List.mem_append_left _ hi))).1
  have hv1 : w1.drv.valid_value = 0 := by
    rw [hd]
    exact (run_isrs_high _ _ rfl hhigh).1
  refine ⟨w1, ?_, hv1, ?_, ?_⟩
  · rw [hr]
    simp [read_ret, hv]
  · intro now
    rw [isr_high _ now hv1, hv1]
  · intro level now hl
    rw [isr_low _ level now hv1 hl]
    exact ⟨rfl, fun level2 now2 => isr_done _ level2 now2 (by simp)⟩

theorem isr_after_timeout_witness :
    ∃ w1, hc_sr04_value_read Cfg.defaults scenario_b 23201 World.initial =
        some (Ret.out_of_range, w1) ∧
      w1.drv.valid_value = 0 := by
  obtain ⟨w1, h, hv, _⟩ := isr_after_timeout Cfg.defaults scenario_b 23201 World.initial
    (le_refl _) (by
      rw [poll_irqs_reset_only scenario_b (fun k => by simp [scenario_b])]
      simp [scenario_b])
  exact ⟨w1, h, hv⟩

/-- C6, as stated, fails: a first read completes (scenario A, 150 us) and leaves
`valid_value` = 1. In the second read the store `valid_value = 0` comes only
after the trigger line has been driven to 1 and back to 0, so the handler
invocation that arrives while the trigger line is high finds `valid_value` = 1
left by the first cycle and drops its rising edge at 2000 us; the falling edge
at 2100 us is then measured against the stale `echo_start` and 1100 is returned. -/
theorem reset_after_trigger_pulse :
    run Cfg.defaults 23201 World.initial [Op.read scenario_a_fast, Op.read early_echo] =
      some { drv := { valid_value := 1, echo_start := 1000000, echo_end := 2100000 },
             trace := [Ev.gpio_set_value 4 1, Ev.udelay 10, Ev.gpio_set_value 4 0,
               Ev.store_valid_value 0, Ev.isr 1 1000000 0, Ev.isr 0 1150000 0,
               Ev.ret (Ret.elapsed 150),
               Ev.gpio_set_value 4 1, Ev.isr 1 2000000 1, Ev.udelay 10,
               Ev.gpio_set_value 4 0, Ev.store_valid_value 0, Ev.isr 0 2100000 0,
               Ev.ret (Ret.elapsed 1100)] } := by
  decide

/-- C6, amended: in every call of the read routine the store `valid_value = 0`
comes after the whole trigger pulse (`gpio_set_value(gpio_trigger, 1)`,
`udelay(10)`, `gpio_set_value(gpio_trigger, 0)`) and before the first poll.
Handler invocations during the pulse see `valid_value` as the previous cycle
left it, and change nothing when it was non-zero; the invocations after the
store start from `valid_value` = 0. -/
theorem reset_follows_trigger_pulse (cfg : Cfg) (env : Sched) (fuel : Nat) (w : World)
    (hf : 23201 ≤ fuel) :
    ∃ r w1 evs, hc_sr04_value_read cfg env fuel w = some (r, w1) ∧
      w1.trace = w.trace ++
        ([Ev.gpio_set_value cfg.gpio_trigger 1] ++ isr_log w.drv (env Win.trig_hi) ++
          [Ev.udelay 10] ++ isr_log (run_isrs w.drv (env Win.trig_hi)) (env Win.delay10) ++
          [Ev.gpio_set_value cfg.gpio_trigger 0] ++
          isr_log (run_isrs w.drv (env Win.trig_hi ++ env Win.delay10)) (env Win.trig_lo)) ++
        [Ev.store_valid_value 0] ++ isr_log (after_reset env w.drv) (env Win.reset) ++ evs ∧
      (∀ v, Ev.store_valid_value v ∉
        [Ev.gpio_set_value cfg.gpio_trigger 1] ++ isr_log w.drv (env Win.trig_hi) ++
          [Ev.udelay 10] ++ isr_log (run_isrs w.drv (env Win.trig_hi)) (env Win.delay10) ++
          [Ev.gpio_set_value cfg.gpio_trigger 0] ++
          isr_log (run_isrs w.drv (env Win.trig_hi ++ env Win.delay10)) (env Win.trig_lo)) ∧
      (w.drv.valid_value ≠ 0 → run_isrs w.drv (pulse_irqs env) = w.drv) ∧
      (after_reset env w.drv).valid_value = 0 := by
  obtain ⟨w1, mid, hr, _, ht, _⟩ := read_spec cfg env fuel w hf
  refine ⟨_, w1, mid ++ [Ev.ret (read_ret (run_isrs (after_reset env w.drv) (window_irqs env)))],
    hr, ?_, ?_, ?_, rfl⟩
  · rw [ht]
    simp [pulse_trace, List.append_assoc]
  · intro v hmem
    simp only [List.mem_append, List.mem_singleton] at hmem
    rcases hmem with ((((h | h) | h) | h) | h) | h
    · cases h
    · obtain ⟨_, _, _, e⟩ := isr_log_is_isr _ _ _ h
      cases e
    · cases h
    · obtain ⟨_, _, _, e⟩ := isr_log_is_isr _ _ _ h
      cases e
    · cases h
    · obtain ⟨_, _, _, e⟩ := isr_log_is_isr _ _ _ h
      cases e
  · intro hv
    exact run_isrs_done _ _ hv

theorem reset_follows_trigger_pulse_witness :
    ∃ r w1 evs, hc_sr04_value_read Cfg.defaults quiet 23201 World.initial = some (r, w1) ∧
      w1.trace = [Ev.gpio_set_value 4 1, Ev.udelay 10, Ev.gpio_set_value 4 0,
        Ev.store_valid_value 0] ++ evs := by
  obtain ⟨r, w1, evs, h, ht, _⟩ :=
    reset_follows_trigger_pulse Cfg.defaults quiet 23201 World.initial (le_refl _)
  refine ⟨r, w1, evs, h, ?_⟩
  rw [ht]
  simp [quiet, isr_log, World.initial, Cfg.defaults]

/-! ## Module initialisation -/

theorem init_returns (k : InitCalls) (h : Hw) :
    (hc_sr04_init k h).1 = 0 ∨ (hc_sr04_init k h).1 = -1 := by
  unfold hc_sr04_init
  repeat' split
  all_goals simp

theorem init_success_iff (k : InitCalls) (h : Hw) :
    (hc_sr04_init k h).1 = 0 ↔ k.all_ok := by
  unfold hc_sr04_init InitCalls.all_ok
  repeat' split
  all_goals simp
  all_goals omega

theorem init_success_ready (k : InitCalls) (h : Hw) (hk : (hc_sr04_init k h).1 = 0) :
    (hc_sr04_init k h).2.ready = true ∧ (hc_sr04_init k h).2.class_registered = true := by
  revert hk
  unfold hc_sr04_init
  repeat' split
  all_goals simp [Hw.ready]

/-- C9, failing input: the class registers, then requesting the trigger line
fails with -16: `hc_sr04_init` returns -1 and the class, whose attribute reaches
`hc_sr04_value_read`, stays registered although no line is held and no handler
is installed. -/
theorem init_failure_leaves_class_registered :
    hc_sr04_init InitCalls.trigger_busy Hw.initial =
      (-1, { Hw.initial with class_registered := true }) ∧
    (hc_sr04_init InitCalls.trigger_busy Hw.initial).2.class_registered = true ∧
    (hc_sr04_init InitCalls.trigger_busy Hw.initial).2.ready = false := by
  decide

/-! ## The invariant over whole executions -/

theorem times_append (a b : List Ev) : times (a ++ b) = times a ++ times b := by
  simp [times, List.filterMap_append]

theorem clock_ok_left (a b : List Ev) (h : clock_ok (a ++ b)) : clock_ok a := by
  unfold clock_ok at h ⊢
  rw [times_append] at h
  exact ⟨(List.pairwise_append.1 h.1).1, fun t ht => h.2 t (List.mem_append_left _ ht)⟩

theorem stamped_mono (a b : List Ev) (x : Int) (h : stamped a x) : stamped (a ++ b) x := by
  rcases h with h | h
  · exact Or.inl h
  · exact Or.inr (by rw [times_append]; exact List.mem_append_left _ h)

theorem stamped_range (tr : List Ev) (x : Int) (hc : clock_ok tr) (h : stamped tr x) :
    0 ≤ x ∧ x < 2 ^ 63 := by
  rcases h with h | h
  · subst h; norm_num
  · exact hc.2 x h

theorem safe_emit (e : Ev) (w : World) (he : ∀ us, e ≠ Ev.ret (Ret.elapsed us))
    (hs : Safe w) : Safe (emit e w) := by
  intro hc
  obtain ⟨h1, h2, h3, h4⟩ := hs (clock_ok_left _ _ hc)
  refine ⟨stamped_mono _ _ _ h1, stamped_mono _ _ _ h2, h3, ?_⟩
  intro us hmem
  simp only [emit, List.mem_append, List.mem_singleton] at hmem
  rcases hmem with hmem | hmem
  · exact h4 us hmem
  · exact absurd hmem.symm (he us)

theorem safe_emit_ret (w : World) (hv : w.drv.valid_value ≠ 0) (hs : Safe w) :
    Safe (emit (Ev.ret (Ret.elapsed
      (ktime_to_us (ktime_sub w.drv.echo_end w.drv.echo_start)))) w) := by
  intro hc
  have hc0 : clock_ok w.trace := clock_ok_left _ _ hc
  obtain ⟨h1, h2, h3, h4⟩ := hs hc0
  refine ⟨stamped_mono _ _ _ h1, stamped_mono _ _ _ h2, h3, ?_⟩
  intro us hmem
  simp only [emit, List.mem_append, List.mem_singleton] at hmem
  rcases hmem with hmem | hmem
  · exact h4 us hmem
  · have hr1 := stamped_range _ _ hc0 h1
    have hr2 := stamped_range _ _ hc0 h2
    have hle := h3 hv
    have e : us = ktime_to_us (ktime_sub w.drv.echo_end w.drv.echo_start) := by
      injection hmem with h5
      injection h5
    rw [e, elapsed_us _ _ hr1.1 hle hr2.2]
    exact Int.ediv_nonneg (by omega) (by norm_num)

theorem safe_fire (w : World) (i : Irq) (hs : Safe w) : Safe (fire w i) := by
  intro hc
  have hc0 : clock_ok w.trace := clock_ok_left _ _ hc
  obtain ⟨h1, h2, h3, h4⟩ := hs hc0
  have ht : times (w.trace ++ [Ev.isr i.level i.now w.drv.valid_value]) =
      times w.trace ++ [i.now] := by
    simp [times, Ev.time]
  have hc1 : (times w.trace ++ [i.now]).Pairwise (fun a b => a ≤ b) := by
    rw [← ht]; exact hc.1
  have hle : ∀ a ∈ times w.trace, a ≤ i.now := fun a ha =>
    (List.pairwise_append.1 hc1).2.2 a ha i.now (List.mem_singleton_self _)
  have hnow : 0 ≤ i.now := by
    have hm : i.now ∈ times (w.trace ++ [Ev.isr i.level i.now w.drv.valid_value]) := by
      rw [ht]; simp
    exact (hc.2 i.now hm).1
  have hmem : stamped (w.trace ++ [Ev.isr i.level i.now w.drv.valid_value]) i.now :=
    Or.inr (by rw [ht]; simp)
  have hrets : ∀ us, Ev.ret (Ret.elapsed us) ∈
      w.trace ++ [Ev.isr i.level i.now w.drv.valid_value] → 0 ≤ us := by
    intro us hm
    simp only [List.mem_append, List.mem_singleton] at hm
    rcases hm with hm | hm
    · exact h4 us hm
    · cases hm
  show Inv { drv := hc_sr04_isr w.drv i.level i.now,
             trace := w.trace ++ [Ev.isr i.level i.now w.drv.valid_value] }
  by_cases hv : w.drv.valid_value = 0
  · by_cases hl : i.level = 1
    · have hi : hc_sr04_isr w.drv i.level i.now = { w.drv with echo_start := i.now } := by
        rw [hl]; exact isr_high _ _ hv
      rw [hi]
      exact ⟨hmem, stamped_mono _ _ _ h2, fun hne => absurd hv hne, hrets⟩
    · rw [isr_low _ _ _ hv hl]
      refine ⟨stamped_mono _ _ _ h1, hmem, fun _ => ?_, hrets⟩
      show w.drv.echo_start ≤ i.now
      rcases h1 with h1 | h1
      · rw [h1]; exact hnow
      · exact hle _ h1
  · rw [isr_done _ _ _ hv]
    exact ⟨stamped_mono _ _ _ h1, stamped_mono _ _ _ h2, h3, hrets⟩

theorem safe_deliver (l : List Irq) : ∀ (w : World), Safe w → Safe (deliver l w) := by
  induction l with
  | nil => intro w hs; exact hs
  | cons i l ih =>
    intro w hs
    exact ih (fire w i) (safe_fire w i hs)

theorem safe_reset (w : World) (hs : Safe w) :
    Safe { w with drv := { w.drv with valid_value := 0 } } := by
  intro hc
  obtain ⟨h1, h2, _, h4⟩ := hs hc
  exact ⟨h1, h2, fun hne => absurd rfl hne, h4⟩

theorem safe_poll (env : Sched) : ∀ (fuel counter : Nat) (w : World) (r : Ret) (w1 : World),
    poll env fuel counter w = some (r, w1) → Safe w → Safe w1 := by
  intro fuel
  induction fuel with
  | zero => intro counter w r w1 h _; simp [poll] at h
  | succ f ih =>
    intro counter w r w1 h hs
    rw [poll] at h
    by_cases hv : 0 = w.drv.valid_value
    · simp only [hv, if_true] at h
      by_cases hb : counter + 1 > 23200
      · simp only [hb, if_true, Option.some.injEq, Prod.mk.injEq] at h
        rw [← h.2]
        exact safe_emit _ _ (fun us e => by cases e) (safe_deliver _ _ hs)
      · simp only [hb, if_false] at h
        exact ih _ _ r w1 h (safe_deliver _ _
          (safe_emit _ _ (fun us e => by cases e) (safe_deliver _ _ hs)))
    · simp only [hv, if_false, Option.some.injEq, Prod.mk.injEq] at h
      rw [← h.2]
      have hne : (deliver (env (Win.test (counter + 1))) w).drv.valid_value ≠ 0 := by
        rw [deliver_drv, run_isrs_done _ _ (fun e => hv e.symm)]
        exact fun e => hv e.symm
      exact safe_emit_ret _ hne (safe_deliver _ _ hs)

theorem safe_read (cfg : Cfg) (env : Sched) (fuel : Nat) (w : World) (r : Ret) (w1 : World)
    (h : hc_sr04_value_read cfg env fuel w = some (r, w1)) (hs : Safe w) : Safe w1 := by
  unfold hc_sr04_value_read at h
  refine safe_poll env fuel 0 _ r w1 h ?_
  apply safe_deliver
  apply safe_emit _ _ (fun us e => by cases e)
  apply safe_reset
  apply safe_deliver
  apply safe_emit _ _ (fun us e => by cases e)
  apply safe_deliver
  apply safe_emit _ _ (fun us e => by cases e)
  apply safe_deliver
  exact safe_emit _ _ (fun us e => by cases e) hs

theorem safe_run (cfg : Cfg) (fuel : Nat) (ops : List Op) : ∀ (w w1 : World),
    run cfg fuel w ops = some w1 → Safe w → Safe w1 := by
  induction ops with
  | nil =>
    intro w w1 h hs
    simp only [run, Option.some.injEq] at h
    rw [← h]; exact hs
  | cons op ops ih =>
    intro w w1 h hs
    simp only [run] at h
    cases op with
    | isr i =>
      simp only [step, Option.some_bind] at h
      exact ih _ w1 h (safe_fire w i hs)
    | read env =>
      simp only [step] at h
      cases hr : hc_sr04_value_read cfg env fuel w with
      | none => rw [hr] at h; simp at h
      | some p =>
        rw [hr] at h
        simp only [Option.map_some', Option.some_bind] at h
        exact ih _ w1 h (safe_read cfg env fuel w p.1 p.2 hr hs)

theorem safe_initial : Safe World.initial := by
  intro _
  refine ⟨Or.inl rfl, Or.inl rfl, fun h => absurd rfl h, ?_⟩
  intro us h
  simp [World.initial] at h

theorem run_total (cfg : Cfg) (fuel : Nat) (hf : 23201 ≤ fuel) (ops : List Op) :
    ∀ (w : World), ∃ w1, run cfg fuel w ops = some w1 := by
  induction ops with
  | nil => intro w; exact ⟨w, rfl⟩
  | cons op ops ih =>
    intro w
    cases op with
    | isr i =>
      obtain ⟨w1, h⟩ := ih (fire w i)
      exact ⟨w1, by simp only [run, step, Option.some_bind]; exact h⟩
    | read env =>
      obtain ⟨w2, _, hr, _⟩ := read_spec cfg env fuel w hf
      obtain ⟨w1, h⟩ := ih w2
      exact ⟨w1, by simp only [run, step, hr, Option.map_some', Option.some_bind]; exact h⟩

/-- C3: from the state at module load, for every sequence of handler
invocations and read calls (each read preempted by any schedule of handler
invocations), the execution runs to the end, and if the timestamps read by the
handler, in the order the invocations happened, are non-negative,
non-decreasing `s64` values, then every result returned through line 78 is a
non-negative number of microseconds, hence not -1, and in the final state a
non-zero `valid_value` comes with `echo_start ≤ echo_end`. -/
theorem elapsed_never_negative (cfg : Cfg) (fuel : Nat) (ops : List Op) (hf : 23201 ≤ fuel) :
    (∃ w, run cfg fuel World.initial ops = some w) ∧
    ∀ w, run cfg fuel World.initial ops = some w → clock_ok w.trace →
      (∀ us, Ev.ret (Ret.elapsed us) ∈ w.trace →
        0 ≤ us ∧ us ≠ -1 ∧ Ret.elapsed us ≠ Ret.out_of_range ∧
          (Ret.elapsed us).number ≠ Ret.out_of_range.number) ∧
      (w.drv.valid_value ≠ 0 → w.drv.echo_start ≤ w.drv.echo_end) := by
  refine ⟨run_total cfg fuel hf ops World.initial, ?_⟩
  intro w hrun hc
  obtain ⟨_, _, h3, h4⟩ := safe_run cfg fuel ops World.initial w hrun safe_initial hc
  refine ⟨fun us hm => ?_, h3⟩
  have h := h4 us hm
  refine ⟨h, (by omega), (fun e => by cases e), ?_⟩
  show us ≠ -1
  omega

theorem run_scenario_a_fast :
    run Cfg.defaults 23201 World.initial [Op.read scenario_a_fast] =
      some { drv := { valid_value := 1, echo_start := 1000000, echo_end := 1150000 },
             trace := [Ev.gpio_set_value 4 1, Ev.udelay 10, Ev.gpio_set_value 4 0,
               Ev.store_valid_value 0, Ev.isr 1 1000000 0, Ev.isr 0 1150000 0,
               Ev.ret (Ret.elapsed 150)] } := by
  decide

theorem elapsed_never_negative_witness :
    ∃ w, run Cfg.defaults 23201 World.initial [Op.read scenario_a_fast] = some w ∧
      clock_ok w.trace ∧ Ev.ret (Ret.elapsed 150) ∈ w.trace ∧
      ∀ us, Ev.ret (Ret.elapsed us) ∈ w.trace → 0 ≤ us ∧ us ≠ -1 :=
  ⟨_, run_scenario_a_fast, by decide, by decide, fun us hm =>
    ⟨(((elapsed_never_negative Cfg.defaults 23201 [Op.read scenario_a_fast] (le_refl _)).2
        _ run_scenario_a_fast (by decide)).1 us hm).1,
      (((elapsed_never_negative Cfg.defaults 23201 [Op.read scenario_a_fast] (le_refl _)).2
        _ run_scenario_a_fast (by decide)).1 us hm).2.1⟩⟩

end HcSr04
